import Mathlib

/-!
Verification of the layered User CRUD service
(routes → controllers → services → repositories → Prisma store).

The HTTP layer is embedded as pure functions threading the store state
explicitly: an `async` Express handler becomes a function from the request
data and the current store to a response (paired with the successor store
when the handler writes).  A thrown/unhandled store error is an
`Except.error` result, matching the fact that the controllers install no
`try`/`catch`, so store failures propagate to the framework.
-/

set_option autoImplicit false

namespace WorkshopPrisma

/-- A persisted `User` row: auto-incremented integer `id`, `name`, and
`email` (unique).  The `tasks` relation is never read or written by any
implemented operation, so it is not part of the embedded row. -/
structure User where
  id : Int
  name : String
  email : String
deriving Repr, DecidableEq

/-- State of the store's `User` table: the rows plus the auto-increment
counter for the next `id`. -/
structure Store where
  users : List User
  nextId : Int
deriving Repr, DecidableEq

/-- A fresh SQLite database: no rows, auto-increment starts at 1. -/
def emptyStore : Store := ⟨[], 1⟩

/-- Failures the Prisma client can raise: a unique-constraint violation
(duplicate email), a missing required argument, or update/delete of a row
that does not exist.  None of these is caught by application code. -/
inductive StoreError where
  | uniqueViolation
  | missingField
  | recordNotFound
deriving Repr, DecidableEq

/-- The `{ name, email }` object destructured from `req.body` and handed to
`User.create({ data })`.  A JS field that is absent (`undefined`) is `none`;
no layer validates it before the store. -/
structure CreateData where
  name : Option String
  email : Option String
deriving Repr, DecidableEq

/-- The partial `{ name?, email? }` object handed to `User.update`. -/
structure UpdateData where
  name : Option String
  email : Option String
deriving Repr, DecidableEq

/-- Whether some row already carries email `e` (the store's view of the
`email String @unique` constraint from `prisma/schema.prisma`). -/
def Store.emailTaken (s : Store) (e : String) : Bool :=
  s.users.any (fun u => u.email == e)

/-- A JavaScript `number` as it is used for row ids: either an integer or
`NaN` (`none`).  `Number(idParam)` on a non-numeric path segment yields
`NaN`, which equals no integer id; non-integer numeric values also match
no integer id and are folded into `none` here. -/
abbrev JsNum := Option Int

/-- The decimal value of a nonempty digit string, `none` otherwise. -/
def decDigits (cs : List Char) : Option Nat :=
  if cs.isEmpty then none
  else
    cs.foldl (fun acc c =>
      match acc with
      | none => none
      | some n => if c.isDigit then some (10 * n + (c.toNat - 48)) else none)
      (some 0)

/-- The characters with leading and trailing whitespace removed. -/
def trimWs (cs : List Char) : List Char :=
  ((cs.dropWhile Char.isWhitespace).reverse.dropWhile Char.isWhitespace).reverse

/-- Model of JavaScript `Number(s)` restricted to integer results: leading
and trailing whitespace is ignored, the empty string converts to `0`, an
optionally signed digit string converts to the corresponding integer, and
every other string (in particular every non-numeric one) yields `NaN`
(`none`). -/
def jsNumber (s : String) : JsNum :=
  match trimWs s.data with
  | [] => some 0
  | c :: cs =>
    if c = '-' then (decDigits cs).map (fun n => -(n : Int))
    else if c = '+' then (decDigits cs).map (fun n => (n : Int))
    else (decDigits (c :: cs)).map (fun n => (n : Int))

instance exceptDecEq {ε α : Type} [DecidableEq ε] [DecidableEq α] :
    DecidableEq (Except ε α) := fun a b =>
  match a, b with
  | Except.error e, Except.error f =>
    if h : e = f then isTrue (by rw [h])
    else isFalse (fun hh => h (Except.error.inj hh))
  | Except.error _, Except.ok _ => isFalse (fun hh => Except.noConfusion hh)
  | Except.ok _, Except.error _ => isFalse (fun hh => Except.noConfusion hh)
  | Except.ok x, Except.ok y =>
    if h : x = y then isTrue (by rw [h])
    else isFalse (fun hh => h (Except.ok.inj hh))

/-- Prisma `User.create({ data })` per `prisma/schema.prisma`: both columns
are required (`missingField` mirrors the client's argument validation), the
email must be unused (`@unique`), and the new row receives the
auto-incremented id.  The generated client itself is outside src/; its
behaviour here follows the schema and spec §3/§4.1. -/
def User.create (s : Store) (d : CreateData) : Except StoreError (User × Store) :=
  match d.name, d.email with
  | some n, some e =>
    if s.emailTaken e then
      Except.error StoreError.uniqueViolation
    else
      Except.ok (⟨s.nextId, n, e⟩, ⟨s.users ++ [⟨s.nextId, n, e⟩], s.nextId + 1⟩)
  | _, _ => Except.error StoreError.missingField

/-- Prisma `User.findMany()`: every row. -/
def User.findMany (s : Store) : List User := s.users

/-- Prisma `User.findUnique({ where: { id } })` on a valid integer key:
the row whose id equals the key, absent otherwise (spec §4.1:
find-by-id(id) → User or absent).  The `none` (`NaN`) branch is a
simplification that treats an invalid key as clean absence; the client's
real argument validation on that branch is restored by
`User.findUniqueChecked`, with which this lookup agrees on every integer
key. -/
def User.findUnique (s : Store) (key : JsNum) : Option User :=
  match key with
  | none => none
  | some i => s.users.find? (fun u => u.id == i)

/-- Modelled from the spec: Prisma `User.update({ where: { id }, data })`
as invoked by the README's Etapa 6 repository code, which is absent from
the src/ snapshot.  Per spec §4.1 it fails if the id is absent, applies the
partial data otherwise, and a unique-constraint violation (email already
used by another row) propagates unchanged. -/
def User.update (s : Store) (key : JsNum) (d : UpdateData) :
    Except StoreError (User × Store) :=
  match User.findUnique s key with
  | none => Except.error StoreError.recordNotFound
  | some u =>
    if s.users.any (fun v => v.id != u.id && v.email == d.email.getD u.email) then
      Except.error StoreError.uniqueViolation
    else
      Except.ok (⟨u.id, d.name.getD u.name, d.email.getD u.email⟩,
        ⟨s.users.map (fun v =>
          if v.id == u.id then ⟨u.id, d.name.getD u.name, d.email.getD u.email⟩ else v),
         s.nextId⟩)

/-- Modelled from the spec: Prisma `User.delete({ where: { id } })` as
invoked by the README's Etapa 6 repository code, which is absent from the
src/ snapshot.  Per spec §4.1 it fails if the id is absent and removes the
row otherwise. -/
def User.delete (s : Store) (key : JsNum) : Except StoreError (User × Store) :=
  match User.findUnique s key with
  | none => Except.error StoreError.recordNotFound
  | some u => Except.ok (u, ⟨s.users.filter (fun v => v.id != u.id), s.nextId⟩)

namespace userRepository

/-- `src/repositories/user.repository.ts` — `create(data)`: delegates to
`User.create({ data })`. -/
def create (data : CreateData) (s : Store) : Except StoreError (User × Store) :=
  User.create s data

/-- `src/repositories/user.repository.ts` — `findAll()`: delegates to
`User.findMany()`. -/
def findAll (s : Store) : List User :=
  User.findMany s

/-- `src/repositories/user.repository.ts` — `findById(id)`: delegates to
`User.findUnique({ where: { id } })`. -/
def findById (id : JsNum) (s : Store) : Option User :=
  User.findUnique s id

/-- Modelled from the spec: repository `update(id, data)` (README Etapa 6;
absent from the src/ snapshot): delegates to `User.update`. -/
def update (id : JsNum) (data : UpdateData) (s : Store) :
    Except StoreError (User × Store) :=
  User.update s id data

/-- Modelled from the spec: repository `remove(id)` (README Etapa 6; absent
from the src/ snapshot): delegates to `User.delete`. -/
def remove (id : JsNum) (s : Store) : Except StoreError (User × Store) :=
  User.delete s id

end userRepository

namespace userService

/-- `src/services/user.service.ts` — `createUser(data)`: delegates
directly. -/
def createUser (data : CreateData) (s : Store) : Except StoreError (User × Store) :=
  userRepository.create data s

/-- `src/services/user.service.ts` — `getAllUsers()`: delegates directly. -/
def getAllUsers (s : Store) : List User :=
  userRepository.findAll s

/-- `src/services/user.service.ts` — `getUserById(id)`: delegates
directly. -/
def getUserById (id : JsNum) (s : Store) : Option User :=
  userRepository.findById id s

/-- Modelled from the spec: service `updateUser(id, data)` (README Etapa 6
final form; absent from the src/ snapshot): first performs
`findById`; if absent returns the `null` sentinel (`none`) instead of
calling `update`; otherwise delegates to `update`. -/
def updateUser (id : JsNum) (data : UpdateData) (s : Store) :
    Option (Except StoreError (User × Store)) :=
  match userRepository.findById id s with
  | none => none
  | some _ => some (userRepository.update id data s)

/-- Modelled from the spec: service `deleteUser(id)` (README Etapa 6 final
form; absent from the src/ snapshot): identical guard pattern before
calling `remove`. -/
def deleteUser (id : JsNum) (s : Store) :
    Option (Except StoreError (User × Store)) :=
  match userRepository.findById id s with
  | none => none
  | some _ => some (userRepository.remove id s)

end userService

/-- A JSON response body: a single user, the user list, a
`{ message: ... }` object, or the empty body of `res.send()`. -/
inductive ResBody where
  | user (u : User)
  | userList (l : List User)
  | message (m : String)
  | empty
deriving Repr, DecidableEq

/-- An HTTP response as produced by `res.status(...).json(...)` or
`res.status(...).send()`. -/
structure HttpResponse where
  status : Nat
  body : ResBody
deriving Repr, DecidableEq

namespace userController

/-- `src/controllers/user.controller.ts` — `createUser`: destructures
`{ name, email }` from the body, calls the service, responds 201 with the
created record; a store error is uncaught and propagates. -/
def createUser (body : CreateData) (s : Store) :
    Except StoreError (HttpResponse × Store) :=
  match userService.createUser ⟨body.name, body.email⟩ s with
  | Except.error err => Except.error err
  | Except.ok (u, s') => Except.ok (⟨201, ResBody.user u⟩, s')

/-- `src/controllers/user.controller.ts` — `getAllUsers`: responds 200 with
the full list. -/
def getAllUsers (s : Store) : HttpResponse :=
  ⟨200, ResBody.userList (userService.getAllUsers s)⟩

/-- `src/controllers/user.controller.ts` — `getUserById`: converts the path
parameter with `Number`, responds 200 with the record, or 404 with
`{ message: "User not found" }` when the lookup is absent. -/
def getUserById (idParam : String) (s : Store) : HttpResponse :=
  match userService.getUserById (jsNumber idParam) s with
  | some u => ⟨200, ResBody.user u⟩
  | none => ⟨404, ResBody.message "User not found"⟩

/-- Modelled from the spec: controller `updateUser` (README Etapa 6 final
form; absent from the src/ snapshot): parses id and partial body, responds
404 `{ message: "User not found" }` on the service's `null` sentinel, and
200 with the updated record otherwise; store errors propagate. -/
def updateUser (idParam : String) (body : UpdateData) (s : Store) :
    Except StoreError (HttpResponse × Store) :=
  match userService.updateUser (jsNumber idParam) ⟨body.name, body.email⟩ s with
  | none => Except.ok (⟨404, ResBody.message "User not found"⟩, s)
  | some (Except.error err) => Except.error err
  | some (Except.ok (u, s')) => Except.ok (⟨200, ResBody.user u⟩, s')

/-- Modelled from the spec: controller `deleteUser` (README Etapa 6 final
form; absent from the src/ snapshot): parses the id, responds 404
`{ message: "User not found" }` on the service's `null` sentinel, and 204
with an empty body on success. -/
def deleteUser (idParam : String) (s : Store) :
    Except StoreError (HttpResponse × Store) :=
  match userService.deleteUser (jsNumber idParam) s with
  | none => Except.ok (⟨404, ResBody.message "User not found"⟩, s)
  | some (Except.error err) => Except.error err
  | some (Except.ok (_, s')) => Except.ok (⟨204, ResBody.empty⟩, s')

end userController

/-- An HTTP verb of the Express router. -/
inductive Verb where
  | post
  | get
  | put
  | delete
deriving Repr, DecidableEq

/-- Tags naming the controller functions a route can be mapped to. -/
inductive RouteHandler where
  | create
  | list
  | getOne
  | update
  | delete
deriving Repr, DecidableEq

/-- `src/routes/user.routes.ts`: the static routing table built by the
`router.post`/`router.get` calls, in registration order. -/
def router : List (Verb × String × RouteHandler) :=
  [(Verb.post, "/users", RouteHandler.create),
   (Verb.get, "/users", RouteHandler.list),
   (Verb.get, "/users/:id", RouteHandler.getOne)]

/-- The Prisma client's `PrismaClientValidationError`: raised by the
client's argument validation before any query is issued — for example when
a `NaN` value is supplied for the `Int` key of a unique where-clause. -/
inductive ClientError where
  | validation
deriving Repr, DecidableEq

/-- The Prisma client's `User.findUnique({ where: { id } })` with its
argument validation restored: the generated client checks the where-clause
arguments before querying, and a `NaN` id (`none`) is not an `Int`, so the
call raises `PrismaClientValidationError` instead of returning a row or
absence.  On an integer key it behaves exactly as `User.findUnique` (see
`findUniqueChecked_int_agrees`).  The client is external to src/;
`User.findUnique` above is the simplification of this lookup that treats
an invalid key as clean absence. -/
def User.findUniqueChecked (s : Store) (key : JsNum) :
    Except ClientError (Option User) :=
  match key with
  | none => Except.error ClientError.validation
  | some i => Except.ok (s.users.find? (fun u => u.id == i))

/-- `src/repositories/user.repository.ts` — `findById(id)` over the
checked client: the same one-line delegation. -/
def userRepository.findByIdChecked (id : JsNum) (s : Store) :
    Except ClientError (Option User) :=
  User.findUniqueChecked s id

/-- `src/services/user.service.ts` — `getUserById(id)` over the checked
client: delegates directly; a client error passes through (no catch). -/
def userService.getUserByIdChecked (id : JsNum) (s : Store) :
    Except ClientError (Option User) :=
  userRepository.findByIdChecked id s

/-- `src/controllers/user.controller.ts` — `getUserById` over the checked
client: converts the path parameter with `Number` and branches on the
awaited record exactly as in the source; the handler installs no
`try`/`catch`, so a client validation error propagates as an unhandled
rejection and the handler produces no 404 (and no response at all). -/
def userController.getUserByIdChecked (idParam : String) (s : Store) :
    Except ClientError HttpResponse :=
  match userService.getUserByIdChecked (jsNumber idParam) s with
  | Except.error e => Except.error e
  | Except.ok (some u) => Except.ok ⟨200, ResBody.user u⟩
  | Except.ok none => Except.ok ⟨404, ResBody.message "User not found"⟩

/-- Well-formedness of the `User` table as SQLite maintains it: rows have
pairwise-distinct primary keys and pairwise-distinct emails (`@unique`),
and every id is below the auto-increment counter. -/
def Store.WF (s : Store) : Prop :=
  s.users.Pairwise (fun a b => a.id ≠ b.id ∧ a.email ≠ b.email) ∧
  ∀ u ∈ s.users, u.id < s.nextId

instance storeWFDec (s : Store) : Decidable s.WF := by
  unfold Store.WF
  infer_instance

/-- A one-row sample store used by the witnesses below. -/
def store1 : Store := ⟨[⟨1, "a", "a@x"⟩], 2⟩

/-- A sequence of POST /users requests: each `(name, email)` pair is sent
as the body `{name, email}` to the create controller in turn, stopping at
the first store error. -/
def postUsers : List (String × String) → Store → Except StoreError (List HttpResponse × Store)
  | [], s => Except.ok ([], s)
  | q :: rest, s =>
    match userController.createUser ⟨some q.1, some q.2⟩ s with
    | Except.error err => Except.error err
    | Except.ok (r, s₁) =>
      match postUsers rest s₁ with
      | Except.error err => Except.error err
      | Except.ok (rs, s₂) => Except.ok (r :: rs, s₂)

theorem controller_getUserById_none {s : Store} {p : String}
    (h : userService.getUserById (jsNumber p) s = none) :
    userController.getUserById p s = ⟨404, ResBody.message "User not found"⟩ := by
  unfold userController.getUserById
  rw [h]

theorem controller_getUserById_some {s : Store} {p : String} {u : User}
    (h : userService.getUserById (jsNumber p) s = some u) :
    userController.getUserById p s = ⟨200, ResBody.user u⟩ := by
  unfold userController.getUserById
  rw [h]

theorem service_updateUser_none {key : JsNum} {d : UpdateData} {s : Store}
    (h : userRepository.findById key s = none) :
    userService.updateUser key d s = none := by
  unfold userService.updateUser
  rw [h]

theorem service_deleteUser_none {key : JsNum} {s : Store}
    (h : userRepository.findById key s = none) :
    userService.deleteUser key s = none := by
  unfold userService.deleteUser
  rw [h]

theorem service_updateUser_some {key : JsNum} {d : UpdateData} {s : Store} {u : User}
    (h : userRepository.findById key s = some u) :
    userService.updateUser key d s = some (userRepository.update key d s) := by
  unfold userService.updateUser
  rw [h]

theorem service_deleteUser_some {key : JsNum} {s : Store} {u : User}
    (h : userRepository.findById key s = some u) :
    userService.deleteUser key s = some (userRepository.remove key s) := by
  unfold userService.deleteUser
  rw [h]

/-- C1 (counterexample): the routing table built in
`src/routes/user.routes.ts` does not register five entries — it registers
three, and neither `PUT /users/:id → update` nor
`DELETE /users/:id → delete` is among them. -/
theorem router_does_not_register_five :
    router.length ≠ 5 ∧ router.length = 3 ∧
    (Verb.put, "/users/:id", RouteHandler.update) ∉ router ∧
    (Verb.delete, "/users/:id", RouteHandler.delete) ∉ router := by
  decide

/-- C1 (amended): the routing table registers exactly three path+verb
entries, each mapped to its handler: POST /users → create,
GET /users → list, GET /users/:id → get-one. -/
theorem router_registers_three_entries :
    router.length = 3 ∧
    (Verb.post, "/users", RouteHandler.create) ∈ router ∧
    (Verb.get, "/users", RouteHandler.list) ∈ router ∧
    (Verb.get, "/users/:id", RouteHandler.getOne) ∈ router := by
  decide

/-- C5: GET /users/:id responds 404 with `{message:"User not found"}` for
every id on which find-by-id is absent, and 200 with the record for every
id on which find-by-id returns a record. -/
theorem getUserById_spec (s : Store) (p : String) :
    (userService.getUserById (jsNumber p) s = none →
      userController.getUserById p s = ⟨404, ResBody.message "User not found"⟩) ∧
    (∀ u, userService.getUserById (jsNumber p) s = some u →
      userController.getUserById p s = ⟨200, ResBody.user u⟩) :=
  ⟨fun h => controller_getUserById_none h,
   fun _ h => controller_getUserById_some h⟩

theorem getUserById_spec_witness :
    userController.getUserById "7" store1 = ⟨404, ResBody.message "User not found"⟩ ∧
    userController.getUserById "1" store1 = ⟨200, ResBody.user ⟨1, "a", "a@x"⟩⟩ :=
  ⟨(getUserById_spec store1 "7").1 (by decide),
   (getUserById_spec store1 "1").2 ⟨1, "a", "a@x"⟩ (by decide)⟩

theorem findUniqueChecked_int_agrees (s : Store) (i : Int) :
    User.findUniqueChecked s (some i) = Except.ok (User.findUnique s (some i)) :=
  rfl

/-- C9 (counterexample): at the non-numeric path parameter "abc", `Number`
yields `NaN`, and the find-by-id call raises the Prisma client's
validation error, which the handler propagates uncaught — the lookup does
not return absent and the response is not the claimed 404. -/
theorem getUserById_nonNumeric_counterexample :
    jsNumber "abc" = none ∧
    userController.getUserByIdChecked "abc" store1 =
      Except.error ClientError.validation ∧
    userController.getUserByIdChecked "abc" store1 ≠
      Except.ok ⟨404, ResBody.message "User not found"⟩ := by
  decide

/-- C9 (amended): for every GET /users/:id whose path parameter is not a
numeric string, the controller converts it with `Number` (yielding `NaN`),
the Prisma client's find-by-id rejects the `NaN` key with
`PrismaClientValidationError` before any lookup, and the error propagates
uncaught from the handler — the response is an unhandled error rather than
a 404. -/
theorem getUserById_nonNumeric_validation (s : Store) (p : String)
    (h : jsNumber p = none) :
    User.findUniqueChecked s (jsNumber p) = Except.error ClientError.validation ∧
    userController.getUserByIdChecked p s = Except.error ClientError.validation := by
  constructor
  · rw [h]
    rfl
  · unfold userController.getUserByIdChecked userService.getUserByIdChecked
      userRepository.findByIdChecked User.findUniqueChecked
    rw [h]

theorem getUserById_nonNumeric_validation_witness :
    jsNumber "abc" = none ∧
    (User.findUniqueChecked store1 (jsNumber "abc") =
        Except.error ClientError.validation ∧
      userController.getUserByIdChecked "abc" store1 =
        Except.error ClientError.validation) :=
  ⟨by decide, getUserById_nonNumeric_validation store1 "abc" (by decide)⟩

/-- C10: the POST /users controller validates nothing and has a single
success branch: its outcome is exactly the store `create` outcome on the
body's `{name, email}` fields passed through unchanged — 201 with the
created record when the insertion succeeds, the propagated store error
otherwise. -/
theorem createUser_passthrough (body : CreateData) (s : Store) :
    userController.createUser body s =
      (User.create s ⟨body.name, body.email⟩).map
        (fun q => (⟨201, ResBody.user q.1⟩, q.2)) := by
  unfold userController.createUser userService.createUser userRepository.create
  cases h : User.create s ⟨body.name, body.email⟩ with
  | error err => rfl
  | ok q => rfl

/-- C4: the service layer's update/delete guard — each first performs
find-by-id; if absent it returns the `null` sentinel (`none`) and the
repository update/remove call contributes nothing to the result; if
present it delegates to that repository call. -/
theorem service_guard_spec (key : JsNum) (d : UpdateData) (s : Store) :
    (userRepository.findById key s = none →
      userService.updateUser key d s = none ∧
      userService.deleteUser key s = none) ∧
    (∀ u, userRepository.findById key s = some u →
      userService.updateUser key d s = some (userRepository.update key d s) ∧
      userService.deleteUser key s = some (userRepository.remove key s)) :=
  ⟨fun h => ⟨service_updateUser_none h, service_deleteUser_none h⟩,
   fun _ h => ⟨service_updateUser_some h, service_deleteUser_some h⟩⟩

theorem service_guard_spec_witness :
    (userService.updateUser (some 9) ⟨some "z", none⟩ store1 = none ∧
      userService.deleteUser (some 9) store1 = none) ∧
    (userService.updateUser (some 1) ⟨some "z", none⟩ store1 =
        some (userRepository.update (some 1) ⟨some "z", none⟩ store1) ∧
      userService.deleteUser (some 1) store1 =
        some (userRepository.remove (some 1) store1)) :=
  ⟨(service_guard_spec (some 9) ⟨some "z", none⟩ store1).1 (by decide),
   (service_guard_spec (some 1) ⟨some "z", none⟩ store1).2 ⟨1, "a", "a@x"⟩ (by decide)⟩

/-- C3: a PUT /users/:id whose id is not present in the store responds 404
with message "User not found", for every partial body, and returns the
store unchanged. -/
theorem updateUser_notFound (s : Store) (p : String) (body : UpdateData)
    (h : userRepository.findById (jsNumber p) s = none) :
    userController.updateUser p body s =
      Except.ok (⟨404, ResBody.message "User not found"⟩, s) := by
  unfold userController.updateUser
  rw [service_updateUser_none h]

theorem updateUser_notFound_witness :
    userController.updateUser "2" ⟨some "z", none⟩ store1 =
      Except.ok (⟨404, ResBody.message "User not found"⟩, store1) :=
  updateUser_notFound store1 "2" ⟨some "z", none⟩ (by decide)

/-- C2: DELETE /users/:id — on an id whose find-by-id is absent it responds
404; on an existing id it responds 204 and the record is no longer
retrievable: the subsequent find-by-id is absent and GET /users/:id
responds 404. -/
theorem deleteUser_spec (s : Store) (p : String) :
    (userRepository.findById (jsNumber p) s = none →
      userController.deleteUser p s =
        Except.ok (⟨404, ResBody.message "User not found"⟩, s)) ∧
    (∀ u, userRepository.findById (jsNumber p) s = some u →
      ∃ s', userController.deleteUser p s = Except.ok (⟨204, ResBody.empty⟩, s') ∧
        userRepository.findById (jsNumber p) s' = none ∧
        userController.getUserById p s' = ⟨404, ResBody.message "User not found"⟩) := by
  constructor
  · intro h
    unfold userController.deleteUser
    rw [service_deleteUser_none h]
  · intro u h
    have hdel : userRepository.remove (jsNumber p) s =
        Except.ok (u, ⟨s.users.filter (fun v => v.id != u.id), s.nextId⟩) := by
      unfold userRepository.remove User.delete
      rw [show User.findUnique s (jsNumber p) = some u from h]
    have hgone : userRepository.findById (jsNumber p)
        ⟨s.users.filter (fun v => v.id != u.id), s.nextId⟩ = none := by
      cases hk : jsNumber p with
      | none => rfl
      | some i =>
        rw [hk] at h
        have hui : u.id = i := by
          have := List.find?_some (show s.users.find? (fun v => v.id == i) = some u from h)
          simpa [beq_iff_eq] using this
        show (s.users.filter (fun v => v.id != u.id)).find? (fun v => v.id == i) = none
        refine List.find?_eq_none.mpr (fun x hx => ?_)
        have hne : x.id ≠ u.id := by
          simpa [bne_iff_ne] using List.of_mem_filter hx
        simp [beq_iff_eq, hui ▸ hne]
    refine ⟨⟨s.users.filter (fun v => v.id != u.id), s.nextId⟩, ?_, hgone,
      controller_getUserById_none hgone⟩
    unfold userController.deleteUser
    rw [service_deleteUser_some h, hdel]

theorem deleteUser_spec_witness :
    userController.deleteUser "9" store1 =
      Except.ok (⟨404, ResBody.message "User not found"⟩, store1) ∧
    (∃ s', userController.deleteUser "1" store1 =
        Except.ok (⟨204, ResBody.empty⟩, s') ∧
      userRepository.findById (jsNumber "1") s' = none ∧
      userController.getUserById "1" s' = ⟨404, ResBody.message "User not found"⟩) :=
  ⟨(deleteUser_spec store1 "9").1 (by decide),
   (deleteUser_spec store1 "1").2 ⟨1, "a", "a@x"⟩ (by decide)⟩

/-- C6: POST /users with a `{name, email}` body whose email is not yet in
the store responds 201 with the created record, whose id is the fresh
auto-increment value and differs from every existing record's id. -/
theorem createUser_unique (s : Store) (b : CreateData) (n e : String)
    (hwf : s.WF) (hn : b.name = some n) (he : b.email = some e)
    (hfree : s.emailTaken e = false) :
    ∃ u s', userController.createUser b s = Except.ok (⟨201, ResBody.user u⟩, s') ∧
      u.name = n ∧ u.email = e ∧ u.id = s.nextId ∧ ∀ v ∈ s.users, u.id ≠ v.id := by
  have hc : User.create s ⟨b.name, b.email⟩ =
      Except.ok (⟨s.nextId, n, e⟩, ⟨s.users ++ [⟨s.nextId, n, e⟩], s.nextId + 1⟩) := by
    rw [hn, he]
    unfold User.create
    simp [hfree]
  refine ⟨⟨s.nextId, n, e⟩, ⟨s.users ++ [⟨s.nextId, n, e⟩], s.nextId + 1⟩, ?_, rfl, rfl,
    rfl, fun v hv => (hwf.2 v hv).ne'⟩
  unfold userController.createUser userService.createUser userRepository.create
  rw [hc]

theorem createUser_unique_witness :
    ∃ u s', userController.createUser ⟨some "b", some "b@x"⟩ store1 =
        Except.ok (⟨201, ResBody.user u⟩, s') ∧
      u.name = "b" ∧ u.email = "b@x" ∧ u.id = store1.nextId ∧
      ∀ v ∈ store1.users, u.id ≠ v.id :=
  createUser_unique store1 ⟨some "b", some "b@x"⟩ "b" "b@x" (by decide) rfl rfl (by decide)

theorem emailTaken_false_forall {s : Store} {e : String}
    (h : s.emailTaken e = false) : ∀ u ∈ s.users, u.email ≠ e := by
  intro u hu heq
  have h2 : s.emailTaken e = true := List.any_eq_true.mpr ⟨u, hu, by simp [heq]⟩
  rw [h] at h2
  exact Bool.false_ne_true h2

theorem create_preserves_WF {s : Store} {d : CreateData} {u : User} {s' : Store}
    (hwf : s.WF) (h : User.create s d = Except.ok (u, s')) : s'.WF := by
  unfold User.create at h
  split at h
  · rename_i n e hn he
    split at h
    · exact Except.noConfusion h
    · rename_i hfree
      have hb : s.emailTaken e = false := Bool.eq_false_iff.mpr hfree
      have hs : ({users := s.users ++ [⟨s.nextId, n, e⟩], nextId := s.nextId + 1} : Store)
          = s' := congrArg Prod.snd (Except.ok.inj h)
      subst hs
      constructor
      · rw [List.pairwise_append]
        refine ⟨hwf.1, List.pairwise_singleton _ _, ?_⟩
        intro a ha b hb2
        rw [List.mem_singleton] at hb2
        subst hb2
        exact ⟨(hwf.2 a ha).ne, emailTaken_false_forall hb a ha⟩
      · intro v hv
        show v.id < s.nextId + 1
        rcases List.mem_append.mp hv with h1 | h1
        · exact (hwf.2 v h1).trans (by omega)
        · rw [List.mem_singleton] at h1
          subst h1
          show s.nextId < s.nextId + 1
          omega
  · exact Except.noConfusion h

theorem update_preserves_WF {s : Store} {key : JsNum} {d : UpdateData}
    {u' : User} {s₂ : Store} (hwf : s.WF)
    (h : User.update s key d = Except.ok (u', s₂)) : s₂.WF := by
  unfold User.update at h
  split at h
  · exact Except.noConfusion h
  · rename_i u0 hf
    split at h
    · exact Except.noConfusion h
    · rename_i hfree
      have hchk : s.users.any
          (fun v => v.id != u0.id && v.email == d.email.getD u0.email) = false :=
        Bool.eq_false_iff.mpr hfree
      have hs : ({users := s.users.map (fun v =>
            if v.id == u0.id then ⟨u0.id, d.name.getD u0.name, d.email.getD u0.email⟩
            else v), nextId := s.nextId} : Store) = s₂ :=
        congrArg Prod.snd (Except.ok.inj h)
      subst hs
      have hnotw : ∀ v ∈ s.users, v.id ≠ u0.id → v.email ≠ d.email.getD u0.email := by
        intro v hv hvid heq
        have h2 : s.users.any
            (fun w => w.id != u0.id && w.email == d.email.getD u0.email) = true :=
          List.any_eq_true.mpr ⟨v, hv, by simp [bne_iff_ne, hvid, heq]⟩
        rw [hchk] at h2
        exact Bool.false_ne_true h2
      constructor
      · rw [List.pairwise_map]
        refine List.Pairwise.imp_of_mem ?_ hwf.1
        intro a b ha hb hab
        by_cases hba : a.id = u0.id <;> by_cases hbb : b.id = u0.id
        · exact absurd (hba.trans hbb.symm) hab.1
        · rw [if_pos (show (a.id == u0.id) = true by simp [hba]),
            if_neg (show ¬(b.id == u0.id) = true by simp [hbb])]
          exact ⟨hba ▸ hab.1, fun heq => hnotw b hb hbb heq.symm⟩
        · rw [if_neg (show ¬(a.id == u0.id) = true by simp [hba]),
            if_pos (show (b.id == u0.id) = true by simp [hbb])]
          exact ⟨hbb ▸ hab.1, hnotw a ha hba⟩
        · rw [if_neg (show ¬(a.id == u0.id) = true by simp [hba]),
            if_neg (show ¬(b.id == u0.id) = true by simp [hbb])]
          exact hab
      · intro v hv
        obtain ⟨a, ha, rfl⟩ := List.mem_map.mp hv
        have hid : (if a.id == u0.id then
            (⟨u0.id, d.name.getD u0.name, d.email.getD u0.email⟩ : User) else a).id
              = a.id := by
          by_cases hba : a.id = u0.id <;> simp [hba]
        rw [hid]
        exact hwf.2 a ha

theorem delete_preserves_WF {s : Store} {key : JsNum} {u : User} {s₂ : Store}
    (hwf : s.WF) (h : User.delete s key = Except.ok (u, s₂)) : s₂.WF := by
  unfold User.delete at h
  split at h
  · exact Except.noConfusion h
  · rename_i u0 hf
    have hs : (⟨s.users.filter (fun v => v.id != u0.id), s.nextId⟩ : Store) = s₂ :=
      congrArg Prod.snd (Except.ok.inj h)
    subst hs
    exact ⟨hwf.1.filter _, fun v hv => hwf.2 v (List.mem_of_mem_filter hv)⟩

/-- C7: email uniqueness is a store invariant: a create whose email equals
an existing record's email fails at the store (the request propagates the
error and yields no 201 response), and every store operation — create,
update, delete — preserves well-formedness (pairwise-distinct emails and
ids). -/
theorem email_uniqueness_invariant (s : Store) :
    (∀ b : CreateData, ∀ e, b.email = some e → s.emailTaken e = true →
      ∃ err, userController.createUser b s = Except.error err) ∧
    (s.WF →
      (∀ d u s', User.create s d = Except.ok (u, s') → s'.WF) ∧
      (∀ key d u s', User.update s key d = Except.ok (u, s') → s'.WF) ∧
      (∀ key u s', User.delete s key = Except.ok (u, s') → s'.WF)) := by
  constructor
  · intro b e he ht
    have hcr : ∃ err, User.create s ⟨b.name, b.email⟩ = Except.error err := by
      cases hn : b.name with
      | none =>
        refine ⟨StoreError.missingField, ?_⟩
        rw [he]
        rfl
      | some n =>
        refine ⟨StoreError.uniqueViolation, ?_⟩
        rw [he]
        unfold User.create
        simp [ht]
    obtain ⟨err, herr⟩ := hcr
    refine ⟨err, ?_⟩
    unfold userController.createUser userService.createUser userRepository.create
    rw [herr]
  · intro hwf
    exact ⟨fun _ _ _ h => create_preserves_WF hwf h,
           fun _ _ _ _ h => update_preserves_WF hwf h,
           fun _ _ _ h => delete_preserves_WF hwf h⟩

theorem email_uniqueness_invariant_witness :
    (∃ err, userController.createUser ⟨some "b", some "a@x"⟩ store1 = Except.error err) ∧
    Store.WF ⟨[⟨1, "a", "a@x"⟩, ⟨2, "b", "b@x"⟩], 3⟩ :=
  ⟨(email_uniqueness_invariant store1).1 ⟨some "b", some "a@x"⟩ "a@x" rfl (by decide),
   ((email_uniqueness_invariant store1).2 (by decide)).1 ⟨some "b", some "b@x"⟩
     ⟨2, "b", "b@x"⟩ ⟨[⟨1, "a", "a@x"⟩, ⟨2, "b", "b@x"⟩], 3⟩ (by decide)⟩

theorem postUsers_ok : ∀ (inputs : List (String × String)) (s : Store),
    (inputs.map Prod.snd).Nodup →
    (∀ q ∈ inputs, s.emailTaken q.2 = false) →
    ∃ (us : List User) (s' : Store), postUsers inputs s =
      Except.ok (us.map (fun u => (⟨201, ResBody.user u⟩ : HttpResponse)), s') ∧
      s'.users = s.users ++ us ∧ us.length = inputs.length ∧
      us.map User.email = inputs.map Prod.snd
  | [], s, _, _ => ⟨[], s, rfl, (List.append_nil _).symm, rfl, rfl⟩
  | (n, e) :: rest, s, hnd, hfree => by
    simp only [List.map_cons] at hnd
    have hnd' := List.nodup_cons.mp hnd
    have hfree0 : s.emailTaken e = false := hfree (n, e) (List.mem_cons_self _ _)
    have hc₀ : User.create s ⟨some n, some e⟩ =
        Except.ok (⟨s.nextId, n, e⟩, ⟨s.users ++ [⟨s.nextId, n, e⟩], s.nextId + 1⟩) := by
      unfold User.create
      simp [hfree0]
    have hc : userController.createUser ⟨some n, some e⟩ s =
        Except.ok (⟨201, ResBody.user ⟨s.nextId, n, e⟩⟩,
          ⟨s.users ++ [⟨s.nextId, n, e⟩], s.nextId + 1⟩) := by
      unfold userController.createUser userService.createUser userRepository.create
      rw [hc₀]
    have hfree' : ∀ q ∈ rest,
        Store.emailTaken ⟨s.users ++ [⟨s.nextId, n, e⟩], s.nextId + 1⟩ q.2 = false := by
      intro q hq
      have h1 : s.users.any (fun v => v.email == q.2) = false :=
        hfree q (List.mem_cons_of_mem _ hq)
      have h2 : ¬e = q.2 := fun heq => hnd'.1 (heq ▸ List.mem_map_of_mem Prod.snd hq)
      show (s.users ++ [(⟨s.nextId, n, e⟩ : User)]).any (fun v => v.email == q.2) = false
      simp [List.any_append, h1, h2]
    obtain ⟨us, s', h1, h2, h3, h4⟩ :=
      postUsers_ok rest ⟨s.users ++ [⟨s.nextId, n, e⟩], s.nextId + 1⟩ hnd'.2 hfree'
    refine ⟨⟨s.nextId, n, e⟩ :: us, s', ?_, ?_, ?_, ?_⟩
    · show (match userController.createUser ⟨some n, some e⟩ s with
        | Except.error err => Except.error err
        | Except.ok (r, s₁) =>
          match postUsers rest s₁ with
          | Except.error err => Except.error err
          | Except.ok (rs, s₂) => Except.ok (r :: rs, s₂)) = _
      rw [hc]
      show (match postUsers rest ⟨s.users ++ [⟨s.nextId, n, e⟩], s.nextId + 1⟩ with
        | Except.error err => Except.error err
        | Except.ok (rs, s₂) =>
          Except.ok ((⟨201, ResBody.user ⟨s.nextId, n, e⟩⟩ : HttpResponse) :: rs, s₂)) = _
      rw [h1]
      rfl
    · rw [h2]
      show (s.users ++ [⟨s.nextId, n, e⟩]) ++ us = _
      rw [List.append_assoc]
      rfl
    · simp [h3]
    · simp [h4]

/-- C8: after POSTing N user bodies with pairwise-distinct emails starting
from the empty store, each request responded 201, and GET /users responds
200 with a list whose length is exactly N and which contains every created
record. -/
theorem getAllUsers_after_creates (inputs : List (String × String))
    (hnd : (inputs.map Prod.snd).Nodup) :
    ∃ (us : List User) (s' : Store), postUsers inputs emptyStore =
      Except.ok (us.map (fun u => (⟨201, ResBody.user u⟩ : HttpResponse)), s') ∧
      userController.getAllUsers s' = ⟨200, ResBody.userList s'.users⟩ ∧
      s'.users.length = inputs.length ∧
      ∀ u ∈ us, u ∈ s'.users := by
  obtain ⟨us, s', h1, h2, h3, _⟩ := postUsers_ok inputs emptyStore hnd (fun q _ => rfl)
  have husers : s'.users = us := by simpa using h2
  refine ⟨us, s', h1, rfl, ?_, ?_⟩
  · rw [husers]
    exact h3
  · intro u hu
    rw [husers]
    exact hu

theorem getAllUsers_after_creates_witness :
    ∃ (us : List User) (s' : Store), postUsers [("a", "a@x"), ("b", "b@x")] emptyStore =
      Except.ok (us.map (fun u => (⟨201, ResBody.user u⟩ : HttpResponse)), s') ∧
      userController.getAllUsers s' = ⟨200, ResBody.userList s'.users⟩ ∧
      s'.users.length = 2 ∧
      ∀ u ∈ us, u ∈ s'.users :=
  getAllUsers_after_creates [("a", "a@x"), ("b", "b@x")] (by decide)

end WorkshopPrisma
